import Mathlib

/-!
Verification of the 10-K financial-statement extraction pipeline.

This file gives a shallow embedding, in Lean 4, of the core pure logic of
the repository (the page locator, the numeric-token parser and row splitter
of `process_table_data`, the two-pass row merger `merge_long_rows`, the
header-application step of `extract_table_from_page`, the metadata row of
`add_parsed_result_row`, and the balance-sheet validation rules of
`table_validation.py`), and proves or refutes the frozen claims about it.

Conventions for the embedding:
* Python strings are Lean `String`s; machine floats of the validation
  module are modelled exactly as rationals `ℚ` (all the numbers involved
  are decimal literals, and the claims are about comparisons with integer
  thresholds).  The float parser models `float(...)` on optional sign,
  digits and a decimal point; exponent forms and infinities, which cannot
  arise from the upstream tokenizer, are out of the modelled domain.
* A pandas cell is `Option String`: `none` is NaN/None (`pd.notna` false,
  `str(...)` rendering `"nan"`), `some s` a string cell.
* Python truthiness of a string is `≠ ""`, of a list `≠ []`.
-/

namespace TenK

/-! ### Python string primitives

All primitives are implemented by structural recursion over the string's
character list, so that they evaluate definitionally on concrete data
(the byte-position implementations of the core library do not). -/

/-- Whether `pat` occurs as a contiguous sub-list of `hay`. -/
def hasSubList (pat : List Char) : List Char → Bool
  | [] => pat.isPrefixOf ([] : List Char)
  | c :: t => pat.isPrefixOf (c :: t) || hasSubList pat t

/-- Python `needle in haystack` (contiguous substring test; `""` is a
substring of everything). -/
def pyIn (needle haystack : String) : Bool :=
  hasSubList needle.toList haystack.toList

/-- Count of non-overlapping occurrences of `pat`, scanning left to right
and skipping the matched block; `fuel` bounds the recursion by the text
length. -/
def countSubAux (pat : List Char) : Nat → List Char → Nat
  | 0, _ => 0
  | _ + 1, [] => 0
  | fuel + 1, c :: t =>
    if pat.isPrefixOf (c :: t) then
      1 + countSubAux pat fuel ((c :: t).drop pat.length)
    else countSubAux pat fuel t

/-- Python `s.count(needle)` for a non-empty needle. -/
def pyCount (needle s : String) : Nat :=
  countSubAux needle.toList s.toList.length s.toList

/-- Helper of `pySplit`: accumulate the current word (reversed) while
scanning the characters. -/
def pySplitAux : List Char → List Char → List String
  | [], acc => if acc = [] then [] else [String.mk acc.reverse]
  | c :: t, acc =>
    if c.isWhitespace then
      if acc = [] then pySplitAux t []
      else String.mk acc.reverse :: pySplitAux t []
    else pySplitAux t (c :: acc)

/-- Python `s.split()`: split on whitespace runs, dropping empty pieces. -/
def pySplit (s : String) : List String := pySplitAux s.toList []

/-- Word count of a page/description, as `len(text.split())`. -/
def wordCount (s : String) : Nat := (pySplit s).length

/-- Python `s.strip()`: remove leading and trailing whitespace. -/
def pyStrip (s : String) : String :=
  String.mk
    (((s.toList.dropWhile Char.isWhitespace).reverse.dropWhile
      Char.isWhitespace).reverse)

/-- Python `s.replace(c, '')` for a single-character pattern (the only
form of `replace` the code uses). -/
def removeChar (c : Char) (s : String) : String :=
  String.mk (s.toList.filter (fun x => x ≠ c))

/-- Python `s.upper()` (ASCII). -/
def pyUpper (s : String) : String := String.mk (s.toList.map Char.toUpper)

/-- Python `s.lower()` (ASCII). -/
def pyLower (s : String) : String := String.mk (s.toList.map Char.toLower)

/-- Python `s.startswith(c)` for a one-character pattern. -/
def startsWithChar (s : String) (c : Char) : Bool := s.toList.headD ' ' = c

/-- Python `c in s` for a single character. -/
def containsChar (s : String) (c : Char) : Bool := s.toList.contains c

/-- A cased character (Python `str.isupper`/`str.islower` look only at
cased characters). -/
def casedChar (c : Char) : Bool := c.isUpper || c.isLower

/-- Python `s.isupper()`: at least one cased character and no lowercase one. -/
def pyIsUpper (s : String) : Bool :=
  s.toList.any casedChar && s.toList.all (fun c => !c.isLower)

/-- Python `s.islower()`: at least one cased character and no uppercase one. -/
def pyIsLower (s : String) : Bool :=
  s.toList.any casedChar && s.toList.all (fun c => !c.isUpper)

/-- First character of a non-empty string (callers guard non-emptiness,
mirroring Python `text[0]`). -/
def headChar (s : String) : Char := s.toList.headD ' '

/-- Python `s.endswith(suf)` for the one-character suffixes used by the code. -/
def endsWithChar (s : String) : Char → Bool := fun c =>
  s.toList.getLast? = some c

/-- The apostrophe character, kept out of string literals. -/
def apos : String := String.singleton (Char.ofNat 39)

/-- Index of the first occurrence of `pat` in a character list, if any
(Python `str.find`, which returns the first index; the `-1` not-found
convention is represented by `none` and is unreachable at its use site). -/
def charFind : List Char → List Char → Nat → Option Nat
  | [], pat, i => if pat.isPrefixOf ([] : List Char) then some i else none
  | c :: t, pat, i =>
      if pat.isPrefixOf (c :: t) then some i else charFind t pat (i + 1)

/-- Python `haystack.find(pat)` as an `Option Nat` over code points. -/
def strFind (haystack pat : String) : Option Nat :=
  charFind haystack.toList pat.toList 0

/-- Character of `s` at index `i` (Python `s[i]` for `0 ≤ i < len`). -/
def charAt (s : String) (i : Nat) : Char := s.toList.getD i ' '

/-! ### Page Locator (`find_page_with_text`, pdf_processor.py lines 163-198)

`pages` is the list of page texts (`page.extract_text()` per page, with a
`None` result modelled as `""`, which the code skips the same way).
`PyPDF2`'s page list supports Python negative indexing, so the embedding
keeps the page counter as an integer: `range(min_page - 1, len(pages))`
can start below zero, in which case `pages[n]` reads from the end of the
list, and an index below `-len(pages)` raises `IndexError`, which the
surrounding `except` turns into a `None` result. -/

/-- `pdf_reader.pages[n]` with Python negative-index semantics; `none` is
`IndexError`. -/
def pyPageAt (pages : List String) (n : ℤ) : Option String :=
  if n < 0 then
    let m := n + pages.length
    if m < 0 then none else pages.get? m.toNat
  else pages.get? n.toNat

/-- One pass of the page-scanning loop; `fuel` is the number of remaining
iterations of `range(min_page - 1, len(pages))` and `n` the current
0-indexed page counter.  An `IndexError` (and, vacuously, exhausting the
range) yields `none`. -/
def findPageLoop (pages : List String) (searchUpper : String) :
    Nat → ℤ → Option ℤ
  | 0, _ => none
  | fuel + 1, n =>
    match pyPageAt pages n with
    | none => none
    | some text =>
      if text = "" then findPageLoop pages searchUpper fuel (n + 1)
      else if 350 ≤ wordCount text then findPageLoop pages searchUpper fuel (n + 1)
      else if 2 ≤ pyCount "TABLE OF CONTENTS" (pyUpper text)
              || pyIn "INDEX" (pyUpper text) then
        findPageLoop pages searchUpper fuel (n + 1)
      else if pyIn searchUpper (pyUpper text) then some (n + 1)
      else findPageLoop pages searchUpper fuel (n + 1)

/-- `find_page_with_text(pdf_path, search_text, min_page)`: scan pages from
`min_page` (1-indexed) and return the first qualifying 1-indexed page
number, else `None`. -/
def find_page_with_text (pages : List String) (searchText : String)
    (minPage : ℤ) : Option ℤ :=
  findPageLoop pages (pyUpper searchText)
    ((pages.length : ℤ) - (minPage - 1)).toNat (minPage - 1)

/-! ### Numeric Token Parser and row splitter (`process_table_data`,
pdf_processor.py lines 226-345)

A raw table is a list of column labels plus rows of cells. -/

/-- A pandas cell: `none` is NaN/None. -/
abbrev Cell := Option String

/-- Python `str(cell)` on a cell (a NaN renders as `"nan"`). -/
def cellStr : Cell → String
  | none => "nan"
  | some s => s

/-- A raw pandas DataFrame: column labels and rows of cells. -/
structure PyDF where
  headers : List String
  rows : List (List Cell)
deriving DecidableEq

/-- The dash glyphs treated as empty values
(`dash_values = {"—", "-", "--", "–", "―"}`). -/
def dashValues : List String := ["—", "-", "--", "–", "―"]

/-- `part.startswith('(') and part.endswith(')') and len(part) > 2`. -/
def bracketShell (p : String) : Bool :=
  startsWithChar p '(' && p.toList.getLast? = some ')' && p.toList.length > 2

/-- `part[1:-1]` as a string. -/
def innerContent (p : String) : String :=
  String.mk ((p.toList.drop 1).dropLast)

/-- `re.match(r'^[\d,]+$', bracket_content)`: non-empty, only digits and
commas.  (`bracketShell` guarantees non-emptiness at the call sites.) -/
def contentDigitsCommas (p : String) : Bool :=
  (innerContent p).toList.all (fun c => c.isDigit || c = ',') &&
    (innerContent p) ≠ ""

/-- `part.replace(',', '').replace('$', '').strip()`. -/
def cleanPart (p : String) : String :=
  pyStrip (removeChar '$' (removeChar ',' p))

/-- `re.match(r'^-?[\d]+\.?[\d]*$', s)`: optional minus sign, one or more
digits, an optional decimal point followed by zero or more digits.  The
character classes are disjoint, so the greedy match is deterministic. -/
def matchesNumRe (s : String) : Bool :=
  let cs := match s.toList with
    | '-' :: t => t
    | t => t
  let ds := cs.takeWhile Char.isDigit
  let rest := cs.drop ds.length
  ds ≠ [] &&
    (rest = [] || (rest.headD ' ' = '.' && (rest.drop 1).all Char.isDigit))

/-- The `has_numbers` scan of `process_table_data`: some token is a
bracketed digit group or (containing no parenthesis) a plain number. -/
def hasNumbersParts (parts : List String) : Bool :=
  parts.any fun p =>
    if bracketShell p then contentDigitsCommas p
    else !containsChar p '(' && !containsChar p ')' && matchesNumRe (cleanPart p)

/-- The bracketed-number boundary test: the token's first occurrence in the
row string starts the string or follows a space
(`idx = row_str.find(part); idx == 0 or row_str[idx-1] == ' '`). -/
def bracketBoundaryOK (rowStr p : String) : Bool :=
  match strFind rowStr p with
  | some idx => idx = 0 || charAt rowStr (idx - 1) = ' '
  | none => false

/-- The right-to-left token scan of `process_table_data`: `revParts` is the
token list reversed, `acc` the value strings collected so far.  Returns
the remaining description tokens (in order) and the value strings. -/
def scanTokensRev (rowStr : String) :
    List String → List String → List String × List String
  | [], acc => ([], acc)
  | p :: rest, acc =>
    if dashValues.contains p then
      scanTokensRev rowStr rest ("" :: acc)
    else if bracketShell p then
      if contentDigitsCommas p && bracketBoundaryOK rowStr p then
        scanTokensRev rowStr rest
          (("-" ++ removeChar ',' (innerContent p)) :: acc)
      else ((p :: rest).reverse, acc)
    else if !containsChar p '(' && !containsChar p ')' &&
        matchesNumRe (cleanPart p) then
      scanTokensRev rowStr rest (cleanPart p :: acc)
    else ((p :: rest).reverse, acc)

/-- `(text_parts, number_parts)` for a row string already split into
tokens. -/
def scanTokens (rowStr : String) (parts : List String) :
    List String × List String :=
  scanTokensRev rowStr parts.reverse []

/-- The cell-collection step:
`cells = [str(cell) for cell in row if pd.notna(cell) and str(cell).strip()]`
followed by popping trailing `'None'`/`'None_2'`/`''` cells. -/
def rowCells (row : List Cell) : List String :=
  let kept := row.filterMap fun c =>
    match c with
    | none => none
    | some s => if pyStrip s = "" then none else some s
  (kept.reverse.dropWhile
    (fun s => s = "None" || s = "None_2" || s = "")).reverse

/-- `row_str = ' '.join(cells)` before the `$` strip. -/
def rowJoined (row : List Cell) : String :=
  String.intercalate " " (rowCells row)

/-- `row_str = row_str.replace('$', '').strip()`. -/
def rowNorm (row : List Cell) : String :=
  pyStrip (removeChar '$' (rowJoined row))

/-- `parts = row_str.split()`. -/
def rowParts (row : List Cell) : List String := pySplit (rowNorm row)

/-- The body of the per-row loop of `process_table_data`: `none` means the
row is skipped (`continue`), `some r` that `r` is appended to
`processed_rows`.  `ncols` is `len(df.columns)`. -/
def processRow (ncols : Nat) (row : List Cell) : Option (List String) :=
  if pyStrip (rowJoined row) = "" then none
  else if rowParts row = [] then none
  else if !hasNumbersParts (rowParts row) then
    some (rowNorm row :: List.replicate (ncols - 1) "")
  else if (scanTokens (rowNorm row) (rowParts row)).1 = [] ||
      (scanTokens (rowNorm row) (rowParts row)).2 = [] then
    some (rowNorm row :: List.replicate (ncols - 1) "")
  else
    some (String.intercalate " " (scanTokens (rowNorm row) (rowParts row)).1 ::
      (scanTokens (rowNorm row) (rowParts row)).2)

/-- The mis-promoted header re-insertion of `process_table_data`: when the
first column label contains `"Revenues"`, the header row is pushed back as
the first data row and generic `col_i` labels are substituted. -/
def reinsertHeaderRow (df : PyDF) : PyDF :=
  if pyIn "Revenues" (df.headers.headD "") then
    PyDF.mk ((List.range df.headers.length).map (fun i => "col_" ++ toString i))
      ((df.headers.map some) :: df.rows)
  else df

/-- `processed_rows`: the surviving split rows. -/
def processedRows (df : PyDF) : List (List String) :=
  df.rows.filterMap (processRow df.headers.length)

/-- `max_cols = max(len(row) for row in processed_rows)`. -/
def maxColsOf (processed : List (List String)) : Nat :=
  processed.foldl (fun a r => max a r.length) 0

/-- `process_table_data(df)`: the mis-promoted header re-insertion (first
column label containing `"Revenues"`), the per-row split, and the final
padding to `Description, Value_1, …` columns.  When no row survives, the
(possibly header-re-inserted) input frame is returned unchanged. -/
def process_table_data (df : PyDF) : PyDF :=
  if df.rows.isEmpty || df.headers.isEmpty then df
  else if (processedRows (reinsertHeaderRow df)).isEmpty then
    reinsertHeaderRow df
  else
    PyDF.mk
      ("Description" ::
        (List.range (maxColsOf (processedRows (reinsertHeaderRow df)) - 1)).map
          (fun i => "Value_" ++ toString (i + 1)))
      ((processedRows (reinsertHeaderRow df)).map (fun r =>
        (r ++ List.replicate
          (maxColsOf (processedRows (reinsertHeaderRow df)) - r.length) "").map some))

/-! ### Row Classifier & Merger (`merge_long_rows`,
pdf_processor.py lines 616-873)

A row of the camelot frame is a list of cells; `iloc[0]` is the
description cell, later cells the value columns.  The default word
tolerance of 15 is used throughout, as at every call site. -/

/-- `str(current_row.iloc[0]).strip() if len(current_row) > 0 else ""`. -/
def rowDesc (r : List Cell) : String :=
  match r with
  | [] => ""
  | c :: _ => pyStrip (cellStr c)

/-- The numeric test applied to a value cell string inside
`merge_long_rows` (bracketed digit group, else the plain-number regex on
the comma/dollar-stripped string). -/
def mergeValIsNumber (v : String) : Bool :=
  if bracketShell v then contentDigitsCommas v
  else matchesNumRe (removeChar '$' (removeChar ',' v))

/-- Whether a row has a numeric value in some column after the first
(`pd.notna(val) and str(val).strip()` followed by the numeric test). -/
def rowHasNumbers (r : List Cell) : Bool :=
  (r.drop 1).any fun c =>
    c.isSome && pyStrip (cellStr c) ≠ "" &&
      mergeValIsNumber (pyStrip (cellStr c))

/-- The continuation words of `is_section_header`. -/
def continuationWords : List String :=
  ["and", "or", "the", "of", "in", "to", "for", "with", "by", "from"]

/-- Regex `^[A-Z][a-z\s]+:$` with `re.IGNORECASE`: a letter, then one or
more letters/whitespace, then a final colon. -/
def headerPatColon (s : String) : Bool :=
  match s.toList with
  | [] => false
  | c :: rest =>
    c.isAlpha && rest.getLast? = some ':' &&
      rest.dropLast ≠ [] &&
      rest.dropLast.all (fun x => x.isAlpha || x.isWhitespace)

/-- Regex `^[A-Z\s]+$` with `re.IGNORECASE`: one or more
letters/whitespace (case-insensitive, so any letters). -/
def headerPatAllCaps (s : String) : Bool :=
  s.toList ≠ [] && s.toList.all (fun x => x.isAlpha || x.isWhitespace)

/-- Regex `^[A-Z][a-z\s]+SUFFIX$` with `re.IGNORECASE` for a literal
lowercase `suffix`: a letter, then one or more letters/whitespace, then
the suffix. -/
def headerPatTail (suffix : List Char) (s : String) : Bool :=
  match s.toList with
  | [] => false
  | c :: rest =>
    c.isAlpha && rest.length > suffix.length &&
      (rest.drop (rest.length - suffix.length)).map Char.toLower = suffix &&
      (rest.take (rest.length - suffix.length)).all
        (fun x => x.isAlpha || x.isWhitespace)

/-- `is_section_header` as defined inside `merge_long_rows`
(pdf_processor.py lines 684-725), with `word_tolerance = 15`.  Note the
single-word early `return False` that fires before the pattern list. -/
def is_section_header (text : String) : Bool :=
  if text = "" || text = "nan" then false
  else
    let text := pyStrip text
    if text = "" || !(headChar text).isUpper then false
    else if endsWithChar text ':' then true
    else
      let wc := wordCount text
      let ws := pySplit (pyLower text)
      if wc < 15 && ws ≠ [] && !continuationWords.contains (ws.getLastD "") &&
          !endsWithChar text ',' && !endsWithChar text ';' then
        if wc = 1 then false else true
      else
        headerPatColon text || headerPatAllCaps text ||
          headerPatTail "asset".toList text ||
          headerPatTail "assets".toList text ||
          headerPatTail "liabilitie".toList text ||
          headerPatTail "liabilities".toList text ||
          headerPatTail "equity".toList text

/-- The forward scan of Pass 1: walk the rows after the current one until
a section header (`none`: stop without a match) or a row with numbers
(`some (middle, numRow, rest)`). -/
def findNumericAhead : List (List Cell) →
    Option (List (List Cell) × List Cell × List (List Cell))
  | [] => none
  | r :: rs =>
    if is_section_header (rowDesc r) then none
    else if rowHasNumbers r then some ([], r, rs)
    else
      match findNumericAhead rs with
      | some (mid, nr, rest) => some (r :: mid, nr, rest)
      | none => none

/-- The text-fragment collection of a Pass-1 merge:
non-empty, non-`'nan'` stripped descriptions of the merged rows. -/
def collectTexts (rows : List (List Cell)) : List String :=
  rows.filterMap fun r =>
    let t := rowDesc r
    if t ≠ "" && t ≠ "nan" then some t else none

/-- `merged_data.iloc[0] = merged_text` on a copied row. -/
def setRowDesc (r : List Cell) (s : String) : List Cell :=
  r.set 0 (some s)

/-- Pass 1 of `merge_long_rows`: keep rows with numbers and section
headers; merge a ≥15-word numberless non-header row down into the next
row with numbers (stopping at section headers), concatenating the
intervening descriptions; keep everything else.  `fuel` bounds the number
of loop iterations; every iteration consumes at least one row, so the
initial table length is always sufficient and the fuel-exhausted case is
unreachable. -/
def mergePass1Fuel : Nat → List (List Cell) → List (List Cell)
  | 0, l => l
  | _ + 1, [] => []
  | fuel + 1, r :: rest =>
    if rowHasNumbers r then r :: mergePass1Fuel fuel rest
    else if is_section_header (rowDesc r) then r :: mergePass1Fuel fuel rest
    else if 15 ≤ wordCount (rowDesc r) then
      match findNumericAhead rest with
      | none => r :: mergePass1Fuel fuel rest
      | some (mid, nr, rest') =>
        let parts := collectTexts (r :: (mid ++ [nr]))
        if parts.isEmpty then r :: mergePass1Fuel fuel rest
        else setRowDesc nr (String.intercalate " " parts) :: mergePass1Fuel fuel rest'
    else r :: mergePass1Fuel fuel rest

/-- Pass 1 at its natural fuel. -/
def mergePass1 (rows : List (List Cell)) : List (List Cell) :=
  mergePass1Fuel rows.length rows

/-- `should_merge_up` as defined inside `merge_long_rows`
(pdf_processor.py lines 813-829): short, not all-uppercase, and starting
with a non-uppercase character or entirely lowercase. -/
def should_merge_up (text : String) : Bool :=
  if text = "" || text = "nan" then false
  else
    let text := pyStrip text
    let wc := wordCount text
    if wc < 15 && !pyIsUpper text then
      (text ≠ "" && !(headChar text).isUpper) || pyIsLower text
    else false

/-- Pass 2 of `merge_long_rows` with the accumulated output kept reversed
(its head is the most recently emitted row, Python's `final_rows[-1]`). -/
def mergePass2Go (acc : List (List Cell)) : List (List Cell) → List (List Cell)
  | [] => acc.reverse
  | r :: rest =>
    if should_merge_up (rowDesc r) then
      match acc with
      | [] => mergePass2Go (r :: acc) rest
      | prev :: acc' =>
        mergePass2Go
          (setRowDesc prev (pyStrip (rowDesc prev ++ " " ++ rowDesc r)) :: acc') rest
    else mergePass2Go (r :: acc) rest

/-- Pass 2 of `merge_long_rows`: merge short lowercase continuation rows
up into the previously emitted row. -/
def mergePass2 (rows : List (List Cell)) : List (List Cell) :=
  mergePass2Go [] rows

/-- `merge_long_rows(camelot_df)` with the default `word_tolerance = 15`:
tables of at most one row are returned unchanged, otherwise Pass 1 then
Pass 2. -/
def merge_long_rows (rows : List (List Cell)) : List (List Cell) :=
  if rows.length ≤ 1 then rows
  else mergePass2 (mergePass1 rows)

/-! ### Header application (`extract_table_from_page` lines 1186-1190 and
`extract_table_to_excel` lines 1035-1039)

`if header_years and len(header_years) >= len(table_df.columns) - 1:
   table_df.columns = ['Description'] + header_years[:len(table_df.columns) - 1]`
A `None` result of `extract_header_info` is modelled as `[]` (both are
falsy).  Only the column-label list is relevant. -/

/-- The conditional column renaming applied to an extracted table. -/
def applyHeaderYears (headerYears : List String) (cols : List String) :
    List String :=
  if headerYears ≠ [] && headerYears.length ≥ cols.length - 1 then
    "Description" :: headerYears.take (cols.length - 1)
  else cols

/-! ### Metadata row (`add_parsed_result_row`, pdf_processor.py lines
1694-1739) and its guarded call (`extract_table_from_page` lines
1238-1242). -/

/-- The metadata dictionary built by `intelligent_financial_parser`:
`company` and `statement_type` may be `None`, `periods` and `units` are
lists.  Python truthiness: a `None` or empty string / empty list field is
skipped. -/
structure Metadata where
  company : Option String
  statement_type : Option String
  periods : List String
  units : List String
deriving DecidableEq

/-- Truthiness of an optional string field (`if metadata.get(k):`). -/
def optTruthy (o : Option String) : Bool := o.getD "" ≠ ""

/-- The information string placed in value column `i` (1-indexed) of the
parsed-result row. -/
def parsedCell (m : Metadata) (i : Nat) : String :=
  let colInfo :=
    (if m.periods ≠ [] && i ≤ m.periods.length then
        ["Period: " ++ m.periods.getD (i - 1) ""] else []) ++
    (if m.units ≠ [] then
        ["Units: " ++ String.intercalate "; " m.units] else []) ++
    (if optTruthy m.statement_type then
        ["Type: " ++ m.statement_type.getD ""] else []) ++
    (if optTruthy m.company then
        ["Company: " ++ m.company.getD ""] else [])
  if colInfo ≠ [] then String.intercalate " | " colInfo else ""

/-- `add_parsed_result_row(table_df, metadata)`: prepend a synthetic
`PARSED RESULT` row carrying the metadata, leaving empty tables
unchanged. -/
def add_parsed_result_row (df : PyDF) (m : Metadata) : PyDF :=
  if df.rows.isEmpty || df.headers.isEmpty then df
  else
    let parsedRow :=
      "PARSED RESULT" ::
        (List.range (df.headers.length - 1)).map (fun j => parsedCell m (j + 1))
    PyDF.mk df.headers ((parsedRow.map some) :: df.rows)

/-- The guarded call at the end of `extract_table_from_page`:
`if metadata: table_df = add_parsed_result_row(table_df, metadata)`
(the metadata dictionary is non-empty whenever present, so `some` maps to
the then-branch). -/
def attachParsedResult (md : Option Metadata) (df : PyDF) : PyDF :=
  match md with
  | some m => add_parsed_result_row df m
  | none => df

/-! ### Validation Engine (`table_validation.py`)

A statement is rendered to the validator as a dictionary with `name`,
`headers`, and `tableData` (a list of rows, each a dictionary from column
name to cell string). -/

/-- A `tableData` row: an association list from column names to strings
(`row.get(col, 0)` with a missing key yields the falsy default, modelled
by `none`). -/
abbrev VRow := List (String × String)

/-- `row.get(k)` on a dictionary row. -/
def rowGet (r : VRow) (k : String) : Option String :=
  (r.find? (fun p => p.1 = k)).map (·.2)

/-- A statement as consumed by `FinancialStatementValidator`. -/
structure Statement where
  name : String
  headers : List String
  tableData : List VRow
deriving DecidableEq

/-- Parse a decimal literal as `float(...)` does on the strings this
pipeline produces: optional surrounding whitespace, an optional sign, and
digits with at most one decimal point (at least one digit overall).
`none` is Python's `ValueError`. -/
def pyFloat? (s : String) : Option ℚ :=
  let cs := (pyStrip s).toList
  let neg := cs.headD ' ' = '-'
  let cs := if cs.headD ' ' = '-' || cs.headD ' ' = '+' then cs.drop 1 else cs
  let intPart := cs.takeWhile Char.isDigit
  let rest := cs.drop intPart.length
  let withSign : ℚ → ℚ := fun q => if neg then -q else q
  let digitsVal : List Char → ℚ := fun l =>
    ((l.foldl (fun a c => a * 10 + (c.toNat - 48)) 0 : ℕ) : ℚ)
  match rest with
  | [] => if intPart = [] then none else some (withSign (digitsVal intPart))
  | '.' :: frac =>
    if frac.all Char.isDigit && (intPart ≠ [] || frac ≠ []) then
      some (withSign
        (digitsVal intPart + digitsVal frac / (10 : ℚ) ^ frac.length))
    else none
  | _ => none

/-- `normalize_number(value)` (table_validation.py lines 29-52): empty,
`'nan'` and missing values are `0.0`; `$`, commas and parentheses are
stripped; a parenthesised value is negated; an unparsable value is
`0.0`. -/
def normalize_number (v : Option String) : ℚ :=
  match v with
  | none => 0
  | some s =>
    if s = "" || s = "nan" then 0
    else
      let clean :=
        removeChar ')' (removeChar '(' (removeChar ',' (removeChar '$' s)))
      if pyIn "(" s && pyIn ")" s then (pyFloat? ("-" ++ clean)).getD 0
      else (pyFloat? clean).getD 0

/-- `get_value_columns`: every header except `Description`. -/
def get_value_columns (s : Statement) : List String :=
  s.headers.filter (fun c => c ≠ "Description")

/-- The per-row sum `sum(normalize_number(row.get(col, 0)) for col in value_cols)`. -/
def sumRowCols (valueCols : List String) (r : VRow) : ℚ :=
  valueCols.foldl (fun a c => a + normalize_number (rowGet r c)) 0

/-- `row.get('Description', '').lower()`. -/
def descLower (r : VRow) : String := pyLower ((rowGet r "Description").getD "")

/-- `get_statement_by_name(name)`: first statement whose upper-cased name
contains, or is contained in, the upper-cased target. -/
def get_statement_by_name (stmts : List Statement) (name : String) :
    Option Statement :=
  stmts.find? (fun s =>
    pyIn (pyUpper s.name) (pyUpper name) || pyIn (pyUpper name) (pyUpper s.name))

/-- The result dictionary of the two balance-total calculations (the
Python key `matches` is spelled `matchesFlag`, `matches` being a Lean
keyword). -/
structure Totals where
  calculated : ℚ
  reported : ℚ
  difference : ℚ
  matchesFlag : Bool
deriving DecidableEq

/-- The section labels skipped by `calculate_total_assets`. -/
def assetSectionLabels : List String :=
  ["assets", "current assets:", "liabilities and stockholders" ++ apos ++ " equity"]

/-- The summation loop of `calculate_total_assets`: break at the first
`total assets` row, skip subtotal rows (`'total' in desc`), empty
descriptions and section labels, and add a row's column sum only when it
is strictly positive. -/
def calcAssetsLoop (valueCols : List String) : List VRow → ℚ → ℚ
  | [], acc => acc
  | r :: rest, acc =>
    if pyIn "total assets" (descLower r) then acc
    else if pyIn "total" (descLower r) then calcAssetsLoop valueCols rest acc
    else if descLower r = "" || assetSectionLabels.contains (descLower r) then
      calcAssetsLoop valueCols rest acc
    else if sumRowCols valueCols r > 0 then
      calcAssetsLoop valueCols rest (acc + sumRowCols valueCols r)
    else calcAssetsLoop valueCols rest acc

/-- The row predicate locating the reported `Total assets` row. -/
def isTotalAssetsRow (r : VRow) : Bool := pyIn "total assets" (descLower r)

/-- `calculate_total_assets(balance_sheet)` (table_validation.py lines
98-167). -/
def calculate_total_assets (bs : Statement) : Totals :=
  let valueCols := get_value_columns bs
  match bs.tableData.find? isTotalAssetsRow with
  | none => ⟨0, 0, 0, false⟩
  | some rA =>
    let reported := sumRowCols valueCols rA
    let calculated := calcAssetsLoop valueCols bs.tableData 0
    ⟨calculated, reported, |calculated - reported|,
      decide (|calculated - reported| < 1000)⟩

/-- The row predicate locating the final liabilities-and-equity total row
(`final_total_keywords`). -/
def isFinalLiabTotalRow (r : VRow) : Bool :=
  pyIn "total liabilities and stockholders" (descLower r) ||
    pyIn "total liabilities and equity" (descLower r)

/-- The section labels skipped by `calculate_total_liabilities_equity`. -/
def liabSectionLabels : List String :=
  ["current liabilities:", "stockholders" ++ apos ++ " equity:"]

/-- The summation loop of `calculate_total_liabilities_equity`: a row
naming the liabilities-and-equity section turns the section flag on (and
is itself skipped), the final-total keywords break, rows outside the
section, subtotal rows, empty/label rows and the commitments row are
skipped, and any non-zero row sum is added.  (Since every final-total row
also matches the section-start test, the break branch is unreachable; it
is kept for fidelity.) -/
def calcLiabLoop (valueCols : List String) : List VRow → Bool → ℚ → ℚ
  | [], _, acc => acc
  | r :: rest, inSection, acc =>
    if pyIn "liabilities and stockholders" (descLower r) ||
        pyIn "liabilities and equity" (descLower r) then
      calcLiabLoop valueCols rest true acc
    else if pyIn "total liabilities and stockholders" (descLower r) ||
        pyIn "total liabilities and equity" (descLower r) then acc
    else if !inSection then calcLiabLoop valueCols rest inSection acc
    else if pyIn "total" (descLower r) then calcLiabLoop valueCols rest inSection acc
    else if descLower r = "" || liabSectionLabels.contains (descLower r) then
      calcLiabLoop valueCols rest inSection acc
    else if pyIn "commitments and contingencies" (descLower r) then
      calcLiabLoop valueCols rest inSection acc
    else if sumRowCols valueCols r ≠ 0 then
      calcLiabLoop valueCols rest inSection (acc + sumRowCols valueCols r)
    else calcLiabLoop valueCols rest inSection acc

/-- `calculate_total_liabilities_equity(balance_sheet)` (table_validation.py
lines 169-254). -/
def calculate_total_liabilities_equity (bs : Statement) : Totals :=
  let valueCols := get_value_columns bs
  match bs.tableData.find? isFinalLiabTotalRow with
  | none => ⟨0, 0, 0, false⟩
  | some rL =>
    let reported := sumRowCols valueCols rL
    let calculated := calcLiabLoop valueCols bs.tableData false 0
    ⟨calculated, reported, |calculated - reported|,
      decide (|calculated - reported| < 1000)⟩

/-- Check 1 of `validate_balance_sheet_checks` (table_validation.py lines
263-273): `balance_sheet_1` is `False` when no balance sheet is found and
otherwise compares the two reported totals to within 1000. -/
def balance_sheet_1 (stmts : List Statement) : Bool :=
  match get_statement_by_name stmts "BALANCE" with
  | none => false
  | some bs =>
    decide (|(calculate_total_assets bs).reported -
      (calculate_total_liabilities_equity bs).reported| < 1000)

/-! ### Claim-side specification functions

These definitions follow the wording of the spec/claims (not the code);
the theorems below compare them with the embedded source functions. -/

/-- The integers `a, a+1, …, a+k-1`. -/
def intRangeZ : ℤ → ℕ → List ℤ
  | _, 0 => []
  | a, k + 1 => a :: intRangeZ (a + 1) k

/-- Claim C2's page filter for a 1-indexed page `p`: text non-empty, word
count strictly below 350, uppercased text free of `INDEX`, fewer than two
occurrences of `TABLE OF CONTENTS`, and containing the uppercased search
text. -/
def pageQualifies (pages : List String) (searchText : String) (p : ℤ) : Bool :=
  let text := pages.getD (p - 1).toNat ""
  text ≠ "" && wordCount text < 350 &&
    !pyIn "INDEX" (pyUpper text) &&
    pyCount "TABLE OF CONTENTS" (pyUpper text) < 2 &&
    pyIn (pyUpper searchText) (pyUpper text)

/-- Claim C2's specification of `findPage`: the lowest 1-indexed page
number `≥ minPage` that qualifies, else `none`. -/
def findPageClaim (pages : List String) (searchText : String)
    (minPage : ℤ) : Option ℤ :=
  (intRangeZ 1 pages.length).find?
    (fun p => minPage ≤ p && pageQualifies pages searchText p)

/-- The rows strictly above the first `total assets` row. -/
def assetsAboveRows (bs : Statement) : List VRow :=
  bs.tableData.takeWhile (fun r => !isTotalAssetsRow r)

/-- Claim C4's row filter: skip subtotal rows (`'total'` in the
description), empty descriptions, and the known section labels. -/
def keepAssetRow (r : VRow) : Bool :=
  !pyIn "total" (descLower r) && descLower r ≠ "" &&
    !assetSectionLabels.contains (descLower r)

/-- Claim C4's calculated total, exactly as worded: the sum, over every
non-skipped row strictly above the `total assets` row, of that row's
values summed across all value columns. -/
def calcAssetsClaimed (bs : Statement) : ℚ :=
  (((assetsAboveRows bs).filter keepAssetRow).map
    (sumRowCols (get_value_columns bs))).sum

/-- The amended C4 calculated total: as claimed, but a row is also skipped
when its summed values are not strictly positive (the code's
`if row_total > 0` test). -/
def calcAssetsAmendedSpec (bs : Statement) : ℚ :=
  ((((assetsAboveRows bs).filter keepAssetRow).map
    (sumRowCols (get_value_columns bs))).filter (fun q => 0 < q)).sum

/-- Claim C10's merge-up condition, exactly as worded: fewer than 15
words, not entirely uppercase, and either starting with a lowercase
letter or entirely lowercase. -/
def mergeUpClaimCond (t : String) : Bool :=
  wordCount t < 15 && !pyIsUpper t &&
    ((t ≠ "" && (headChar t).isLower) || pyIsLower t)

/-! ### Concrete example data used by witnesses and counterexamples -/

/-- A balance sheet whose two reported totals are both 450256. -/
def bsBalanced : Statement :=
  Statement.mk "BALANCE_SHEETS" ["Description", "A"]
    [[("Description", "Total assets"), ("A", "450256")],
     [("Description", "Total liabilities and equity"), ("A", "450256")]]

/-- The same balance sheet with the liabilities-and-equity total moved by
1244 (more than 1000). -/
def bsUnbalanced : Statement :=
  Statement.mk "BALANCE_SHEETS" ["Description", "A"]
    [[("Description", "Total assets"), ("A", "450256")],
     [("Description", "Total liabilities and equity"), ("A", "451500")]]

/-- A balance sheet with a negative-valued asset row (an allowance),
separating the code's calculated total from claim C4's. -/
def bsNegativeRow : Statement :=
  Statement.mk "BALANCE_SHEETS" ["Description", "A"]
    [[("Description", "Cash and cash equivalents"), ("A", "100000")],
     [("Description", "Allowance for credit losses"), ("A", "(50000)")],
     [("Description", "Total assets"), ("A", "50000")]]

/-- Two short lowercase numberless rows followed by a numeric row: Pass 2
glues the first two into a 16-word numberless row that a second run of
Pass 1 then merges into the numeric row. -/
def tblTwoFragments : List (List Cell) :=
  [[some "aa bb cc dd ee ff gg hh", some ""],
   [some "ii jj kk ll mm nn oo pp", some ""],
   [some "Cash", some "100"]]

/-- A merged table on which the merger is a fixed point: every row has
numbers and none passes the merge-up test. -/
def tblStable : List (List Cell) :=
  [[some "Cash", some "100"], [some "Deferred revenue", some "200"]]

/-- A 15-word numberless row, a standalone `ASSETS` row, and a numeric
row: the Pass-1 forward scan runs through the `ASSETS` row. -/
def tblAssetsAbsorbed : List (List Cell) :=
  [[some "aa bb cc dd ee ff gg hh ii jj kk ll mm nn oo", some ""],
   [some "ASSETS", some ""],
   [some "Cash", some "100"]]

/-- A table whose second row's description renders as `nan` while being
short and lowercase. -/
def tblNanDesc : List (List Cell) :=
  [[some "Cash", some "100"], [some "nan", some "7"]]

/-- A raw frame whose second row consists solely of `$`. -/
def dfDollarRow : PyDF :=
  PyDF.mk ["c0", "c1"] [[some "Cash", some "100"], [some "$", none]]

/-- The raw scenario frame of claim C3. -/
def dfScenario : PyDF :=
  PyDF.mk ["c0", "c1", "c2", "c3"]
    [[some "Sales and marketing", some "$26,567", some "$27,917", some "$27,808"]]

/-- A raw frame exercising the bracketed-negative token. -/
def dfBracket : PyDF :=
  PyDF.mk ["c0", "c1"] [[some "Interest expense", some "(3,514)"]]

/-- A raw frame exercising the comma-separated positive token. -/
def dfComma : PyDF :=
  PyDF.mk ["c0", "c1"] [[some "Other income", some "3,514"]]

/-- A raw frame exercising a dash glyph between numeric tokens. -/
def dfDash : PyDF :=
  PyDF.mk ["c0", "c1", "c2"] [[some "Other income", some "—", some "5"]]

/-- A small extracted statement frame for the metadata-row witness. -/
def dfSimple : PyDF :=
  PyDF.mk ["Description", "V1"] [[some "Cash", some "1"]]

/-- A fully populated metadata dictionary for the metadata-row witness. -/
def mdExample : Metadata :=
  Metadata.mk (some "GOOG") (some "balance_sheet") ["P1"] ["millions"]

/-! ### Claims -/

/-! Helper evaluation lemmas for row sums. -/

theorem foldl_add_shift (f : String → ℚ) (cs : List String) :
    ∀ a : ℚ,
      cs.foldl (fun x c => x + f c) a = a + cs.foldl (fun x c => x + f c) 0 := by
  induction cs with
  | nil => intro a; simp
  | cons c cs ih =>
    intro a
    rw [List.foldl_cons, List.foldl_cons, ih, ih (0 + f c)]
    ring

theorem sumRowCols_cons (c : String) (cs : List String) (r : VRow) :
    sumRowCols (c :: cs) r = normalize_number (rowGet r c) + sumRowCols cs r := by
  unfold sumRowCols
  rw [List.foldl_cons, foldl_add_shift]
  ring

theorem sumRowCols_nil (r : VRow) : sumRowCols [] r = 0 := rfl

/-- C1: for every document whose balance sheet (located by the fuzzy
`BALANCE` name match) has a `total assets` row and a
`total liabilities and stockholders`/`total liabilities and equity` row,
the check `balance_sheet_1` is `true` exactly when the absolute
difference between the two reported totals (each row summed over all
value columns after numeric normalization) is strictly below 1000. -/
theorem c1_balance_check (stmts : List Statement) (bs : Statement)
    (rA rL : VRow)
    (hbs : get_statement_by_name stmts "BALANCE" = some bs)
    (hA : bs.tableData.find? isTotalAssetsRow = some rA)
    (hL : bs.tableData.find? isFinalLiabTotalRow = some rL) :
    (balance_sheet_1 stmts = true ↔
      |sumRowCols (get_value_columns bs) rA -
        sumRowCols (get_value_columns bs) rL| < 1000) := by
  unfold balance_sheet_1 calculate_total_assets calculate_total_liabilities_equity
  rw [hbs]
  simp only [hA, hL]
  simp

/-- C1 witness: on the sample document with both reported totals 450256
the check passes, and after moving the liabilities-and-equity total by
1244 it fails. -/
theorem c1_balance_check_witness :
    balance_sheet_1 [bsBalanced] = true ∧ balance_sheet_1 [bsUnbalanced] = false := by
  have hv1 : get_value_columns bsBalanced = ["A"] := by decide
  have hv2 : get_value_columns bsUnbalanced = ["A"] := by decide
  have hn1 : normalize_number (some "450256") = 450256 := by decide
  have hn2 : normalize_number (some "451500") = 451500 := by decide
  constructor
  · apply (c1_balance_check [bsBalanced] bsBalanced
      [("Description", "Total assets"), ("A", "450256")]
      [("Description", "Total liabilities and equity"), ("A", "450256")]
      (by decide) (by decide) (by decide)).mpr
    simp only [hv1, sumRowCols_cons, sumRowCols_nil,
      show rowGet [("Description", "Total assets"), ("A", "450256")] "A" =
        some "450256" from by decide,
      show rowGet [("Description", "Total liabilities and equity"),
        ("A", "450256")] "A" = some "450256" from by decide, hn1]
    norm_num
  · have h := c1_balance_check [bsUnbalanced] bsUnbalanced
      [("Description", "Total assets"), ("A", "450256")]
      [("Description", "Total liabilities and equity"), ("A", "451500")]
      (by decide) (by decide) (by decide)
    have h2 : ¬ (|sumRowCols (get_value_columns bsUnbalanced)
        [("Description", "Total assets"), ("A", "450256")] -
        sumRowCols (get_value_columns bsUnbalanced)
        [("Description", "Total liabilities and equity"), ("A", "451500")]| <
          (1000 : ℚ)) := by
      simp only [hv2, sumRowCols_cons, sumRowCols_nil,
        show rowGet [("Description", "Total assets"), ("A", "450256")] "A" =
          some "450256" from by decide,
        show rowGet [("Description", "Total liabilities and equity"),
          ("A", "451500")] "A" = some "451500" from by decide, hn1, hn2]
      norm_num
    cases hb : balance_sheet_1 [bsUnbalanced] with
    | false => rfl
    | true => exact absurd (h.mp hb) h2

/-! Helper lemmas about `intRangeZ` and `List.find?`. -/

theorem intRangeZ_cons (a : ℤ) (k : ℕ) :
    intRangeZ a (k + 1) = a :: intRangeZ (a + 1) k := rfl

theorem mem_intRangeZ : ∀ (k : ℕ) (a p : ℤ), p ∈ intRangeZ a k →
    a ≤ p ∧ p < a + k := by
  intro k
  induction k with
  | zero => intro a p h; simp [intRangeZ] at h
  | succ k ih =>
    intro a p h
    rw [intRangeZ_cons] at h
    rcases List.mem_cons.mp h with h | h
    · subst h; constructor <;> omega
    · have := ih (a + 1) p h
      push_cast at this ⊢
      omega

theorem intRangeZ_append (j : ℕ) : ∀ (a : ℤ) (k : ℕ),
    intRangeZ a (j + k) = intRangeZ a j ++ intRangeZ (a + j) k := by
  induction j with
  | zero => intro a k; simp [intRangeZ]
  | succ j ih =>
    intro a k
    have h1 : j + 1 + k = (j + k) + 1 := by omega
    rw [h1, intRangeZ_cons, ih (a + 1) k, intRangeZ_cons]
    have h2 : a + 1 + (j : ℤ) = a + ((j : ℕ) + 1 : ℕ) := by push_cast; ring
    rw [h2]
    rfl

theorem find?_congrB : ∀ (l : List ℤ) (p q : ℤ → Bool),
    (∀ x ∈ l, p x = q x) → l.find? p = l.find? q := by
  intro l
  induction l with
  | nil => intro p q _; rfl
  | cons x xs ih =>
    intro p q h
    have hx := h x (List.mem_cons_self x xs)
    simp only [List.find?]
    rw [hx]
    cases q x with
    | true => rfl
    | false => exact ih p q (fun y hy => h y (List.mem_cons_of_mem x hy))

theorem intRangeZ_find?_shift : ∀ (k : ℕ) (a : ℤ) (q : ℤ → Bool),
    ((intRangeZ a k).find? (fun m => q (m + 1))).map (· + 1) =
      (intRangeZ (a + 1) k).find? q := by
  intro k
  induction k with
  | zero => intro a q; rfl
  | succ k ih =>
    intro a q
    rw [intRangeZ_cons, intRangeZ_cons]
    simp only [List.find?]
    cases hq : q (a + 1) with
    | true => rfl
    | false => exact ih (a + 1) q

/-- The page-scanning loop is the first match of the claim-side page
filter over the scanned integer range, for non-negative page counters
staying inside the page list. -/
theorem findPageLoop_eq (pages : List String) (s : String) :
    ∀ (k : ℕ) (n : ℤ), 0 ≤ n → n + k ≤ pages.length →
    findPageLoop pages (pyUpper s) k n =
      ((intRangeZ n k).find?
        (fun m => pageQualifies pages s (m + 1))).map (· + 1) := by
  intro k
  induction k with
  | zero => intro n _ _; rfl
  | succ k ih =>
    intro n h0 hlen
    have hlt : n.toNat < pages.length := by omega
    have hsome : pages.get? n.toNat = some (pages.getD n.toNat "") := by
      rw [List.getD_eq_getElem?_getD, ← List.get?_eq_getElem?]
      cases hx : pages.get? n.toNat with
      | none =>
        have := List.get?_eq_none.mp hx
        omega
      | some v => rfl
    have hat : pyPageAt pages n = some (pages.getD n.toNat "") := by
      unfold pyPageAt
      rw [if_neg (by omega)]
      exact hsome
    have hidx : ((n + 1) - 1).toNat = n.toNat := by omega
    rw [intRangeZ_cons]
    simp only [List.find?]
    rw [findPageLoop, hat]
    dsimp only
    set text := pages.getD n.toNat "" with htext
    have hq : pageQualifies pages s (n + 1) =
        (text ≠ "" && wordCount text < 350 &&
          !pyIn "INDEX" (pyUpper text) &&
          pyCount "TABLE OF CONTENTS" (pyUpper text) < 2 &&
          pyIn (pyUpper s) (pyUpper text)) := by
      unfold pageQualifies
      rw [hidx]
    by_cases h1 : text = ""
    · have : pageQualifies pages s (n + 1) = false := by
        rw [hq]; simp [h1]
      rw [if_pos h1, this, ih (n + 1) (by omega) (by push_cast at hlen ⊢; omega)]
    · rw [if_neg h1]
      by_cases h2 : 350 ≤ wordCount text
      · have : pageQualifies pages s (n + 1) = false := by
          rw [hq]; simp [h1]; omega
        rw [if_pos h2, this, ih (n + 1) (by omega) (by push_cast at hlen ⊢; omega)]
      · rw [if_neg h2]
        by_cases h3 : 2 ≤ pyCount "TABLE OF CONTENTS" (pyUpper text)
            || pyIn "INDEX" (pyUpper text)
        · have : pageQualifies pages s (n + 1) = false := by
            rw [hq]
            rcases Bool.or_eq_true_iff.mp h3 with h | h
            · simp at h
              simp [h1]
              intro _ _
              omega
            · simp [h1, h]
          rw [if_pos h3, this, ih (n + 1) (by omega) (by push_cast at hlen ⊢; omega)]
        · rw [if_neg h3]
          have h3' : ¬ (2 ≤ pyCount "TABLE OF CONTENTS" (pyUpper text)) ∧
              pyIn "INDEX" (pyUpper text) = false := by
            constructor
            · intro hc
              exact h3 (Bool.or_eq_true_iff.mpr (Or.inl (by simpa using hc)))
            · by_contra hc
              exact h3 (Bool.or_eq_true_iff.mpr (Or.inr (by simpa using hc)))
          by_cases h4 : pyIn (pyUpper s) (pyUpper text) = true
          · have : pageQualifies pages s (n + 1) = true := by
              rw [hq]
              simp [h1, h4, h3'.2]
              constructor
              · omega
              · omega
            rw [if_pos h4, this]
            rfl
          · have : pageQualifies pages s (n + 1) = false := by
              rw [hq]
              simp [h4]
            rw [if_neg h4, this,
              ih (n + 1) (by omega) (by push_cast at hlen ⊢; omega)]

/-- C2 counterexample: at `minPage = 0` the claim fails.  Python's
`range(-1, 1)` makes the scan start at index `-1`, which reads the *last*
page, so on a one-page document whose only page matches, the function
returns 0 — not the lowest qualifying 1-indexed page (page 1, as the
claim requires) and not `None`. -/
theorem c2_page_locator_counterexample :
    find_page_with_text ["X"] "X" 0 = some 0 ∧
      findPageClaim ["X"] "X" 0 = some 1 ∧
      find_page_with_text ["X"] "X" 0 ≠ findPageClaim ["X"] "X" 0 := by
  refine ⟨by decide, by decide, by decide⟩

/-- C2 (amended): for every page list, search text and `minPage ≥ 1`,
`find_page_with_text` returns exactly the lowest 1-indexed page number
`≥ minPage` whose text is non-empty, has fewer than 350 words, contains no
`INDEX`, contains `TABLE OF CONTENTS` at most once, and contains the
uppercased search text (`none` when no page qualifies); in particular a
returned page always has fewer than 350 words. -/
theorem c2_page_locator (pages : List String) (s : String) (minPage : ℤ)
    (h1 : 1 ≤ minPage) :
    find_page_with_text pages s minPage = findPageClaim pages s minPage ∧
      (∀ n : ℤ, find_page_with_text pages s minPage = some n →
        wordCount (pages.getD (n - 1).toNat "") < 350) := by
  have hmain :
      find_page_with_text pages s minPage = findPageClaim pages s minPage := by
    unfold find_page_with_text findPageClaim
    by_cases hle : minPage - 1 ≤ (pages.length : ℤ)
    · set k := ((pages.length : ℤ) - (minPage - 1)).toNat with hk
      have hnk : (minPage - 1) + (k : ℤ) = pages.length := by omega
      rw [findPageLoop_eq pages s k (minPage - 1) (by omega) (by omega),
        intRangeZ_find?_shift]
      have hm1 : minPage - 1 + 1 = minPage := by ring
      rw [hm1]
      set j := (minPage - 1).toNat with hj
      have hjk : pages.length = j + k := by omega
      rw [hjk, intRangeZ_append]
      have h1j : (1 : ℤ) + (j : ℕ) = minPage := by omega
      rw [h1j, List.find?_append]
      have hnone :
          (intRangeZ 1 j).find?
            (fun p => minPage ≤ p && pageQualifies pages s p) = none := by
        rw [List.find?_eq_none]
        intro p hp
        have := mem_intRangeZ j 1 p hp
        simp only [Bool.and_eq_true, decide_eq_true_eq]
        intro hc
        omega
      rw [hnone]
      have hcongr :
          (intRangeZ minPage k).find?
              (fun p => minPage ≤ p && pageQualifies pages s p) =
            (intRangeZ minPage k).find? (pageQualifies pages s) := by
        apply find?_congrB
        intro p hp
        have hlep : minPage ≤ p := (mem_intRangeZ k minPage p hp).1
        simp [hlep]
      rw [hcongr]
      rfl
    · have hk0 : ((pages.length : ℤ) - (minPage - 1)).toNat = 0 := by omega
      rw [hk0]
      have hnone :
          (intRangeZ 1 pages.length).find?
            (fun p => minPage ≤ p && pageQualifies pages s p) = none := by
        rw [List.find?_eq_none]
        intro p hp
        have := mem_intRangeZ pages.length 1 p hp
        simp only [Bool.and_eq_true, decide_eq_true_eq]
        intro hc
        omega
      rw [hnone]
      rfl
  refine ⟨hmain, ?_⟩
  intro n hn
  rw [hmain] at hn
  unfold findPageClaim at hn
  have := List.find?_some hn
  simp only [Bool.and_eq_true, decide_eq_true_eq] at this
  unfold pageQualifies at this
  simp only [Bool.and_eq_true, decide_eq_true_eq] at this
  exact this.2.1.1.1.2

/-- C2 witness: on a one-page document containing the balance-sheet title,
searching from page 1 returns page 1 on both the code and claim side, and
the returned page has fewer than 350 words. -/
theorem c2_page_locator_witness :
    (1 : ℤ) ≤ 1 ∧
      find_page_with_text ["CONSOLIDATED BALANCE SHEETS"] "BALANCE" 1 =
        findPageClaim ["CONSOLIDATED BALANCE SHEETS"] "BALANCE" 1 ∧
      wordCount (["CONSOLIDATED BALANCE SHEETS"].getD
        (((1 : ℤ)) - 1).toNat "") < 350 := by
  have h := c2_page_locator ["CONSOLIDATED BALANCE SHEETS"] "BALANCE" 1
    (by norm_num)
  exact ⟨by norm_num, h.1, h.2 1 (by decide)⟩

/-! Helper lemmas for the padding invariant of `process_table_data`. -/

theorem processRow_some_length (ncols : Nat) (row : List Cell)
    (out : List String) (h : processRow ncols row = some out) :
    1 ≤ out.length := by
  unfold processRow at h
  split_ifs at h with h1 h2 h3 h4 <;> cases h <;>
    simp only [List.length_cons] <;> omega

theorem foldl_max_le_init (l : List (List String)) :
    ∀ a : ℕ, a ≤ l.foldl (fun b r => max b r.length) a := by
  induction l with
  | nil => intro a; simp
  | cons r rs ih =>
    intro a
    calc a ≤ max a r.length := le_max_left _ _
    _ ≤ rs.foldl (fun b r => max b r.length) (max a r.length) := ih _

theorem length_le_foldl_max (l : List (List String)) :
    ∀ (a : ℕ) (r : List String), r ∈ l → r.length ≤
      l.foldl (fun b r => max b r.length) a := by
  induction l with
  | nil => intro a r h; cases h
  | cons x xs ih =>
    intro a r h
    rcases List.mem_cons.mp h with h | h
    · subst h
      calc r.length ≤ max a r.length := le_max_right _ _
      _ ≤ xs.foldl (fun b r => max b r.length) (max a r.length) :=
        foldl_max_le_init xs _
    · exact ih _ r h

/-- The padded output frame of `process_table_data` is rectangular
whenever the input frame is. -/
theorem process_table_data_rect (df : PyDF)
    (hrect : ∀ r ∈ df.rows, r.length = df.headers.length) :
    ∀ r ∈ (process_table_data df).rows,
      r.length = (process_table_data df).headers.length := by
  unfold process_table_data
  by_cases h0 : df.rows.isEmpty || df.headers.isEmpty
  · rw [if_pos h0]; exact hrect
  · rw [if_neg h0]
    have hrect' : ∀ r ∈ (reinsertHeaderRow df).rows,
        r.length = (reinsertHeaderRow df).headers.length := by
      unfold reinsertHeaderRow
      by_cases hrev : pyIn "Revenues" (df.headers.headD "") = true
      · rw [if_pos hrev]
        intro r hr
        rcases List.mem_cons.mp hr with hr | hr
        · subst hr; simp
        · rw [hrect r hr]; simp
      · rw [if_neg hrev]; exact hrect
    by_cases hp : (processedRows (reinsertHeaderRow df)).isEmpty
    · rw [if_pos hp]; exact hrect'
    · rw [if_neg hp]
      intro r hr
      simp only [List.mem_map] at hr
      obtain ⟨out, hout, rfl⟩ := hr
      have hlen1 : 1 ≤ out.length := by
        obtain ⟨row, -, hrow⟩ :=
          List.mem_filterMap.mp (by exact hout)
        exact processRow_some_length _ row out hrow
      have hle : out.length ≤ maxColsOf (processedRows (reinsertHeaderRow df)) :=
        length_le_foldl_max _ 0 out hout
      have hmc : 1 ≤ maxColsOf (processedRows (reinsertHeaderRow df)) := by
        omega
      simp only [List.length_map, List.length_append, List.length_replicate,
        List.length_cons, List.length_range]
      omega

/-- C3: the numeric token parser maps `(3,514)` to `-3514`, `3,514` to
`3514` and a dash glyph to the empty value; the raw scenario row
`["Sales and marketing", "$26,567", "$27,917", "$27,808"]` yields exactly
one logical row with description `Sales and marketing` and values
`26567, 27917, 27808`; and on every rectangular input frame each output
row of `process_table_data` has exactly `len(headers) - 1` value cells
after padding. -/
theorem c3_numeric_round_trip :
    process_table_data dfBracket =
        PyDF.mk ["Description", "Value_1"]
          [[some "Interest expense", some "-3514"]] ∧
      process_table_data dfComma =
        PyDF.mk ["Description", "Value_1"]
          [[some "Other income", some "3514"]] ∧
      process_table_data dfDash =
        PyDF.mk ["Description", "Value_1", "Value_2"]
          [[some "Other income", some "", some "5"]] ∧
      process_table_data dfScenario =
        PyDF.mk ["Description", "Value_1", "Value_2", "Value_3"]
          [[some "Sales and marketing", some "26567", some "27917",
            some "27808"]] ∧
      ∀ df : PyDF, (∀ r ∈ df.rows, r.length = df.headers.length) →
        ∀ r ∈ (process_table_data df).rows,
          r.length = (process_table_data df).headers.length := by
  refine ⟨by decide, by decide, by decide, by decide, ?_⟩
  exact process_table_data_rect

/-- C3 witness: the padding invariant instantiated on the scenario frame:
its single output row spans all output headers. -/
theorem c3_numeric_round_trip_witness :
    ((process_table_data dfScenario).rows.headD []).length =
      (process_table_data dfScenario).headers.length := by
  exact c3_numeric_round_trip.2.2.2.2 dfScenario (by decide)
    ((process_table_data dfScenario).rows.headD []) (by decide)

/-! Helper lemmas for `calculate_total_assets`. -/

/-- The summation loop of `calculate_total_assets` computes the amended
specification total: the sum of the strictly positive row sums of the
non-skipped rows above the first `total assets` row. -/
theorem calcAssetsLoop_eq (valueCols : List String) :
    ∀ (rows : List VRow) (acc : ℚ),
      calcAssetsLoop valueCols rows acc =
        acc + ((((rows.takeWhile (fun r => !isTotalAssetsRow r)).filter
          keepAssetRow).map (sumRowCols valueCols)).filter
            (fun q => 0 < q)).sum := by
  intro rows
  induction rows with
  | nil => intro acc; simp [calcAssetsLoop]
  | cons r rest ih =>
    intro acc
    by_cases hb : pyIn "total assets" (descLower r) = true
    · have hta : isTotalAssetsRow r = true := hb
      rw [calcAssetsLoop, if_pos hb, List.takeWhile_cons, hta]
      simp
    · have hta : (!isTotalAssetsRow r) = true := by
        unfold isTotalAssetsRow
        simp [hb]
      rw [calcAssetsLoop, if_neg hb, List.takeWhile_cons, hta, if_pos rfl]
      by_cases ht : pyIn "total" (descLower r) = true
      · have hk : keepAssetRow r = false := by
          unfold keepAssetRow
          simp [ht]
        rw [if_pos ht, List.filter_cons, hk, ih]
        simp
      · rw [if_neg ht]
        by_cases hl : (descLower r = "" || assetSectionLabels.contains
            (descLower r)) = true
        · have hk : keepAssetRow r = false := by
            unfold keepAssetRow
            rcases Bool.or_eq_true_iff.mp hl with h | h
            · rw [show descLower r = "" from by simpa using h]
              simp
            · rw [h]
              simp
          rw [if_pos hl, List.filter_cons, hk, ih]
          simp
        · simp only [Bool.or_eq_true_iff, not_or] at hl
          have hne : descLower r ≠ "" := by simpa using hl.1
          have hco : assetSectionLabels.contains (descLower r) = false := by
            simpa using hl.2
          have hk : keepAssetRow r = true := by
            unfold keepAssetRow
            rw [hco]
            simp [ht, hne]
          rw [if_neg (by rw [hco]; simp [hne]), List.filter_cons, hk,
            if_pos rfl, List.map_cons, List.filter_cons]
          by_cases hpos : (0 : ℚ) < sumRowCols valueCols r
          · have hd : decide ((0 : ℚ) < sumRowCols valueCols r) = true := by
              simpa using hpos
            rw [if_pos (by exact hpos), ih, hd, if_pos rfl, List.sum_cons]
            ring
          · have hd : decide ((0 : ℚ) < sumRowCols valueCols r) = false := by
              simpa using hpos
            rw [if_neg (by exact hpos), ih, hd]
            simp

/-- C4 counterexample: on a balance sheet with a negative-valued asset row
(`Allowance for credit losses = (50000)`), the code's calculated total is
100000 — the negative row is skipped by the `row_total > 0` test — while
the claim's calculated total (which skips only subtotal, empty and
section-label rows) is 50000. -/
theorem c4_total_assets_counterexample :
    (calculate_total_assets bsNegativeRow).calculated = 100000 ∧
      calcAssetsClaimed bsNegativeRow = 50000 ∧
      (calculate_total_assets bsNegativeRow).calculated ≠
        calcAssetsClaimed bsNegativeRow := by
  have hCash : sumRowCols ["A"]
      [("Description", "Cash and cash equivalents"), ("A", "100000")] =
        100000 := by
    simp only [sumRowCols_cons, sumRowCols_nil,
      show rowGet [("Description", "Cash and cash equivalents"),
        ("A", "100000")] "A" = some "100000" from by decide,
      show normalize_number (some "100000") = 100000 from by decide]
    norm_num
  have hAllow : sumRowCols ["A"]
      [("Description", "Allowance for credit losses"), ("A", "(50000)")] =
        -50000 := by
    simp only [sumRowCols_cons, sumRowCols_nil,
      show rowGet [("Description", "Allowance for credit losses"),
        ("A", "(50000)")] "A" = some "(50000)" from by decide,
      show normalize_number (some "(50000)") = -50000 from by decide]
    norm_num
  have hvc : get_value_columns bsNegativeRow = ["A"] := by decide
  have hcalc : (calculate_total_assets bsNegativeRow).calculated = 100000 := by
    unfold calculate_total_assets
    rw [show bsNegativeRow.tableData.find? isTotalAssetsRow =
      some [("Description", "Total assets"), ("A", "50000")] from by decide]
    dsimp only
    rw [hvc, calcAssetsLoop_eq]
    rw [show (bsNegativeRow.tableData.takeWhile
        (fun r => !isTotalAssetsRow r)).filter keepAssetRow =
      [[("Description", "Cash and cash equivalents"), ("A", "100000")],
       [("Description", "Allowance for credit losses"), ("A", "(50000)")]]
      from by decide]
    rw [List.map_cons, List.map_cons, List.map_nil, hCash, hAllow]
    norm_num
  have hclaim : calcAssetsClaimed bsNegativeRow = 50000 := by
    unfold calcAssetsClaimed
    rw [hvc]
    rw [show (assetsAboveRows bsNegativeRow).filter keepAssetRow =
      [[("Description", "Cash and cash equivalents"), ("A", "100000")],
       [("Description", "Allowance for credit losses"), ("A", "(50000)")]]
      from by decide]
    rw [List.map_cons, List.map_cons, List.map_nil, hCash, hAllow]
    norm_num
  refine ⟨hcalc, hclaim, ?_⟩
  rw [hcalc, hclaim]
  norm_num

/-- C4 (amended): whenever the balance sheet has a `total assets` row,
`calculate_total_assets` returns as its calculated total the sum, over the
rows strictly above that row, of each row's values summed across all value
columns — skipping subtotal rows, empty descriptions, known section
labels, *and rows whose summed values are not strictly positive* — its
reported total is the `total assets` row summed over all value columns,
and `matches` holds exactly when `|calculated − reported| < 1000`. -/
theorem c4_total_assets (bs : Statement) (rA : VRow)
    (hA : bs.tableData.find? isTotalAssetsRow = some rA) :
    (calculate_total_assets bs).calculated = calcAssetsAmendedSpec bs ∧
      (calculate_total_assets bs).reported =
        sumRowCols (get_value_columns bs) rA ∧
      ((calculate_total_assets bs).matchesFlag = true ↔
        |calcAssetsAmendedSpec bs - sumRowCols (get_value_columns bs) rA| <
          1000) := by
  unfold calculate_total_assets
  rw [hA]
  dsimp only
  have hc : calcAssetsLoop (get_value_columns bs) bs.tableData 0 =
      calcAssetsAmendedSpec bs := by
    rw [calcAssetsLoop_eq]
    unfold calcAssetsAmendedSpec assetsAboveRows
    rw [zero_add]
  refine ⟨hc, rfl, ?_⟩
  rw [hc]
  simp

/-- C4 witness: the amended statement evaluated on the counterexample
balance sheet: the calculated total is the amended-specification total and
`matches` is false there (difference 50000). -/
theorem c4_total_assets_witness :
    (calculate_total_assets bsNegativeRow).calculated =
      calcAssetsAmendedSpec bsNegativeRow := by
  exact (c4_total_assets bsNegativeRow
    [("Description", "Total assets"), ("A", "50000")] (by decide)).1

/-! Helper lemmas for the merger fixed point. -/

/-- Pass 1 leaves a table unchanged when every row has numbers, is a
section header, or is shorter than the word tolerance. -/
theorem mergePass1Fuel_id : ∀ (fuel : ℕ) (l : List (List Cell)),
    (∀ r ∈ l, rowHasNumbers r = true ∨ is_section_header (rowDesc r) = true ∨
      wordCount (rowDesc r) < 15) →
    l.length ≤ fuel → mergePass1Fuel fuel l = l := by
  intro fuel
  induction fuel with
  | zero => intro l _ _; rfl
  | succ fuel ih =>
    intro l hcond hlen
    cases l with
    | nil => rfl
    | cons r rest =>
      have hr := hcond r (List.mem_cons_self r rest)
      have hrest : ∀ x ∈ rest, rowHasNumbers x = true ∨
          is_section_header (rowDesc x) = true ∨ wordCount (rowDesc x) < 15 :=
        fun x hx => hcond x (List.mem_cons_of_mem r hx)
      have hlen' : rest.length ≤ fuel := by
        simp only [List.length_cons] at hlen
        omega
      rw [mergePass1Fuel]
      by_cases h1 : rowHasNumbers r = true
      · rw [if_pos h1, ih rest hrest hlen']
      · rw [if_neg h1]
        by_cases h2 : is_section_header (rowDesc r) = true
        · rw [if_pos h2, ih rest hrest hlen']
        · rw [if_neg h2]
          have h3 : wordCount (rowDesc r) < 15 := by
            rcases hr with h | h | h
            · exact absurd h h1
            · exact absurd h h2
            · exact h
          rw [if_neg (by omega), ih rest hrest hlen']

/-- Pass 2 appends every remaining row unchanged when none of them passes
the merge-up test. -/
theorem mergePass2Go_keep : ∀ (l : List (List Cell)) (acc : List (List Cell)),
    (∀ r ∈ l, should_merge_up (rowDesc r) = false) →
    mergePass2Go acc l = acc.reverse ++ l := by
  intro l
  induction l with
  | nil => intro acc _; simp [mergePass2Go]
  | cons r rest ih =>
    intro acc h
    have hr := h r (List.mem_cons_self r rest)
    rw [mergePass2Go.eq_def]
    dsimp only
    rw [hr]
    simp only [Bool.false_eq_true, if_false]
    rw [ih (r :: acc) (fun x hx => h x (List.mem_cons_of_mem r hx))]
    simp

/-- C5 counterexample: the two-pass merge is not idempotent.  On two short
lowercase numberless rows followed by a numeric row, the first run's Pass
2 glues the fragments into one 16-word numberless row, and a second run's
Pass 1 then merges that row into the numeric row. -/
theorem c5_merge_fixed_point_counterexample :
    merge_long_rows (merge_long_rows tblTwoFragments) ≠
      merge_long_rows tblTwoFragments := by decide

/-- C5 (amended): re-running the merger is a fixed point on every table in
which each row has numeric values, is a section header, or has a
description of fewer than 15 words, and in which no row after the first
passes the merge-up test; on arbitrary merged output (see the
counterexample) this can fail. -/
theorem c5_merge_fixed_point (rows : List (List Cell))
    (h1 : ∀ r ∈ rows, rowHasNumbers r = true ∨
      is_section_header (rowDesc r) = true ∨ wordCount (rowDesc r) < 15)
    (h2 : ∀ r ∈ rows.tail, should_merge_up (rowDesc r) = false) :
    merge_long_rows rows = rows := by
  unfold merge_long_rows
  by_cases hlen : rows.length ≤ 1
  · rw [if_pos hlen]
  · rw [if_neg hlen]
    rw [show mergePass1 rows = rows from
      mergePass1Fuel_id rows.length rows h1 (le_refl _)]
    cases rows with
    | nil => rfl
    | cons r rest =>
      unfold mergePass2
      rw [mergePass2Go.eq_def]
      dsimp only
      have htail : ∀ x ∈ rest, should_merge_up (rowDesc x) = false := by
        simpa using h2
      by_cases hs : should_merge_up (rowDesc r) = true
      · rw [hs, if_pos rfl]
        rw [mergePass2Go_keep rest [r] htail]
        rfl
      · rw [Bool.not_eq_true] at hs
        rw [hs]
        simp only [Bool.false_eq_true, if_false]
        rw [mergePass2Go_keep rest [r] htail]
        rfl

/-- C5 witness: a two-row all-numeric table satisfies the amended
conditions and is indeed a fixed point of the merger. -/
theorem c5_merge_fixed_point_witness :
    merge_long_rows tblStable = tblStable :=
  c5_merge_fixed_point tblStable (by decide) (by decide)

/-- C6: the claim matches the code's own documentation (the all-caps
header pattern is commented `like "ASSETS"`, and `test_merge.py`'s copy of
`is_section_header` classifies `ASSETS` as a section header), but the
production `is_section_header` returns `False` for every single word
before reaching its pattern list, so the Pass-1 forward scan runs through
a standalone `ASSETS` row and absorbs it into a merged row. -/
theorem c6_assets_absorbed :
    is_section_header "ASSETS" = false ∧
      should_merge_up "ASSETS" = false ∧
      merge_long_rows tblAssetsAbsorbed =
        [[some "aa bb cc dd ee ff gg hh ii jj kk ll mm nn oo ASSETS Cash",
          some "100"]] := by
  refine ⟨by decide, by decide, by decide⟩

/-- C7: inferred period headers are applied as a statement's column names
(with `Description` first) only when there are at least as many inferred
headers as value columns; otherwise the existing (placeholder) column
names are kept unchanged, and a partial header-to-column mapping is never
produced: when headers are applied they cover every value column
exactly. -/
theorem c7_header_application (ys cols : List String) (hc : cols ≠ []) :
    (ys.length < cols.length - 1 → applyHeaderYears ys cols = cols) ∧
      (applyHeaderYears ys cols = cols ∨
        (cols.length - 1 ≤ ys.length ∧
          applyHeaderYears ys cols = "Description" :: ys.take (cols.length - 1) ∧
          (applyHeaderYears ys cols).length = cols.length)) := by
  unfold applyHeaderYears
  by_cases h : (ys ≠ [] && decide (ys.length ≥ cols.length - 1)) = true
  · rw [if_pos h]
    simp only [Bool.and_eq_true, decide_eq_true_eq, ne_eq] at h
    constructor
    · intro hlt
      omega
    · right
      refine ⟨h.2, rfl, ?_⟩
      have hlen : cols.length ≥ 1 := by
        cases cols with
        | nil => exact absurd rfl hc
        | cons a l => simp
      simp only [List.length_cons, List.length_take]
      omega
  · rw [if_neg h]
    exact ⟨fun _ => rfl, Or.inl rfl⟩

/-- C7 witness: with three columns, one inferred header is not applied and
two inferred headers are applied in full. -/
theorem c7_header_application_witness :
    applyHeaderYears ["Y1"] ["0", "1", "2"] = ["0", "1", "2"] ∧
      applyHeaderYears ["Y1", "Y2"] ["0", "1", "2"] =
        ["Description", "Y1", "Y2"] := by
  constructor
  · exact (c7_header_application ["Y1"] ["0", "1", "2"] (by decide)).1
      (by norm_num)
  · rcases (c7_header_application ["Y1", "Y2"] ["0", "1", "2"]
      (by decide)).2 with h | h
    · exact absurd h (by decide)
    · exact h.2.1.trans (by decide)

/-- C8 counterexample: a row consisting solely of `$` normalizes to the
empty token list and is silently dropped by the splitter — it is not
retained as a text-only row as the claim requires. -/
theorem c8_malformed_rows_counterexample :
    processRow 2 [some "$"] = none ∧
      process_table_data dfDollarRow =
        PyDF.mk ["Description", "Value_1"] [[some "Cash", some "100"]] := by
  refine ⟨by decide, by decide⟩

/-- C8 (amended): every row that still has at least one token after
normalization and on which description/values separation fails — no
numeric token at all, or an empty description or value list after the
right-to-left scan — is retained as a text-only row (whole normalized
text in the description column, all value cells empty); a row is dropped
only when its normalized text has no tokens. -/
theorem c8_malformed_rows (ncols : Nat) (row : List Cell) :
    (pyStrip (rowJoined row) ≠ "" → rowParts row ≠ [] →
      (hasNumbersParts (rowParts row) = false ∨
        (scanTokens (rowNorm row) (rowParts row)).1 = [] ∨
        (scanTokens (rowNorm row) (rowParts row)).2 = []) →
      processRow ncols row =
        some (rowNorm row :: List.replicate (ncols - 1) "")) ∧
      (processRow ncols row = none →
        pyStrip (rowJoined row) = "" ∨ rowParts row = []) := by
  constructor
  · intro h1 h2 h3
    unfold processRow
    rw [if_neg h1, if_neg h2]
    by_cases hn : hasNumbersParts (rowParts row) = true
    · have h4 : (decide ((scanTokens (rowNorm row) (rowParts row)).1 = []) ||
          decide ((scanTokens (rowNorm row) (rowParts row)).2 = [])) = true := by
        rcases h3 with h | h | h
        · rw [hn] at h
          cases h
        · simp [h]
        · simp [h]
      rw [if_neg (by simp [hn]), if_pos h4]
    · rw [if_pos (by simp [Bool.not_eq_true] at hn; simp [hn])]
  · intro h
    unfold processRow at h
    split_ifs at h with h1 h2 h3 h4
    · exact Or.inl h1
    · exact Or.inr h2

/-- C8 witness: a one-token row with no numeric token is kept as a
text-only row spanning three columns. -/
theorem c8_malformed_rows_witness :
    processRow 3 [some "Total costs and expenses:"] =
      some ["Total costs and expenses:", "", ""] := by
  have h := (c8_malformed_rows 3 [some "Total costs and expenses:"]).1
    (by decide) (by decide) (Or.inl (by decide))
  exact h.trans (by decide)

/-- C9: whenever metadata extraction succeeds and the extracted table is
non-empty, the table returned by the assembly step has exactly one extra
row, prepended ahead of all reconstructed rows: a synthetic row whose
description is `PARSED RESULT`, which spans every column, and whose value
cell `i` carries the rendered metadata for value column `i`. -/
theorem c9_parsed_result_row (df : PyDF) (m : Metadata)
    (h1 : df.rows ≠ []) (h2 : df.headers ≠ []) :
    (attachParsedResult (some m) df).rows.length = df.rows.length + 1 ∧
      (attachParsedResult (some m) df).rows.drop 1 = df.rows ∧
      ((attachParsedResult (some m) df).rows.headD []).headD none =
        some "PARSED RESULT" ∧
      ((attachParsedResult (some m) df).rows.headD []).length =
        df.headers.length ∧
      (∀ i : ℕ, 1 ≤ i → i < df.headers.length →
        ((attachParsedResult (some m) df).rows.headD []).getD i none =
          some (parsedCell m i)) := by
  have hcond : (df.rows.isEmpty || df.headers.isEmpty) = false := by
    cases df with
    | mk hs rs =>
      cases hs with
      | nil => exact absurd rfl h2
      | cons a l =>
        cases rs with
        | nil => exact absurd rfl h1
        | cons b l' => rfl
  have hun : attachParsedResult (some m) df = add_parsed_result_row df m := rfl
  rw [hun]
  unfold add_parsed_result_row
  rw [hcond]
  simp only [Bool.false_eq_true, if_false]
  have hlen1 : 1 ≤ df.headers.length := by
    cases hh : df.headers with
    | nil => exact absurd hh h2
    | cons a l => simp
  refine ⟨by simp, by simp, by simp, ?_, ?_⟩
  · simp only [List.headD_cons, List.length_map, List.length_cons,
      List.length_range]
    omega
  · intro i hi1 hi2
    obtain ⟨j, rfl⟩ : ∃ j, i = j + 1 := ⟨i - 1, by omega⟩
    simp only [List.headD_cons, List.map_cons, List.getD_cons_succ]
    rw [List.getD_eq_getElem?_getD, List.getElem?_map, List.getElem?_map,
      List.getElem?_range (by omega)]
    rfl

/-- C9 witness: on a one-row frame with full metadata, the metadata row is
prepended (the original rows survive as the tail) and value column 1
carries the rendered metadata. -/
theorem c9_parsed_result_row_witness :
    (attachParsedResult (some mdExample) dfSimple).rows.drop 1 =
        dfSimple.rows ∧
      ((attachParsedResult (some mdExample) dfSimple).rows.headD []).getD 1
          none = some (parsedCell mdExample 1) := by
  have h := c9_parsed_result_row dfSimple mdExample (by decide) (by decide)
  exact ⟨h.2.1, h.2.2.2.2 1 (by norm_num) (by decide)⟩

/-! Helper lemmas for Pass-2 merge-up: stripping is idempotent, and a
lowercase first character is not uppercase. -/

theorem dropWhile_idem (p : Char → Bool) (l : List Char) :
    (l.dropWhile p).dropWhile p = l.dropWhile p := by
  induction l with
  | nil => rfl
  | cons c t ih =>
    rw [List.dropWhile_cons]
    by_cases h : p c = true
    · rw [if_pos h]; exact ih
    · rw [if_neg h, List.dropWhile_cons, if_neg h]

theorem head_dropWhile_false (p : Char → Bool) (l : List Char) :
    ∀ a, (l.dropWhile p).head? = some a → p a = false := by
  induction l with
  | nil => intro a h; cases h
  | cons c t ih =>
    intro a h
    rw [List.dropWhile_cons] at h
    by_cases hc : p c = true
    · rw [if_pos hc] at h; exact ih a h
    · rw [if_neg hc] at h
      simp only [List.head?_cons, Option.some.injEq] at h
      subst h
      exact Bool.eq_false_iff.mpr hc

theorem dropWhile_of_head (p : Char → Bool) (l : List Char)
    (h : ∀ a, l.head? = some a → p a = false) : l.dropWhile p = l := by
  cases l with
  | nil => rfl
  | cons c t =>
    have hc := h c rfl
    rw [List.dropWhile_cons, hc]
    simp

theorem getLast_dropWhile (p : Char → Bool) (l : List Char) :
    (l.dropWhile p) ≠ [] → (l.dropWhile p).getLast? = l.getLast? := by
  induction l with
  | nil => intro h; exact absurd rfl h
  | cons c t ih =>
    intro h
    rw [List.dropWhile_cons] at h ⊢
    by_cases hc : p c = true
    · rw [if_pos hc] at h ⊢
      rw [ih h]
      have ht : t ≠ [] := by
        intro he
        rw [he] at h
        simp [List.dropWhile] at h
      cases t with
      | nil => exact absurd rfl ht
      | cons b t' => rw [List.getLast?_cons_cons]
    · rw [if_neg hc]

theorem pyStrip_idem (s : String) : pyStrip (pyStrip s) = pyStrip s := by
  unfold pyStrip
  show String.mk
      ((((((s.toList.dropWhile Char.isWhitespace).reverse.dropWhile
        Char.isWhitespace).reverse).dropWhile
          Char.isWhitespace).reverse.dropWhile Char.isWhitespace).reverse) = _
  set u := s.toList.dropWhile Char.isWhitespace with hu
  set v := u.reverse.dropWhile Char.isWhitespace with hv
  by_cases hvnil : v = []
  · rw [hvnil]
    rfl
  · have hA : v.reverse.dropWhile Char.isWhitespace = v.reverse := by
      apply dropWhile_of_head
      intro a ha
      rw [List.head?_reverse] at ha
      have hg : v.getLast? = u.reverse.getLast? := by
        rw [hv]
        exact getLast_dropWhile _ _ (by rwa [← hv])
      rw [hg, List.getLast?_reverse] at ha
      exact head_dropWhile_false _ _ a (by rwa [← hu])
    rw [hA, List.reverse_reverse,
      show v.dropWhile Char.isWhitespace = v from by
        rw [hv]; exact dropWhile_idem _ _]

theorem rowDesc_stripped (r : List Cell) : pyStrip (rowDesc r) = rowDesc r := by
  cases r with
  | nil => rfl
  | cons c t => exact pyStrip_idem (cellStr c)

theorem isLower_not_isUpper (c : Char) (h : c.isLower = true) :
    c.isUpper = false := by
  simp only [Char.isLower, Bool.and_eq_true, decide_eq_true_eq] at h
  simp only [Char.isUpper, Bool.and_eq_true, decide_eq_true_eq,
    Bool.and_eq_false_iff, Bool.eq_false_iff]
  rcases h with ⟨h1, -⟩
  intro hcon
  simp only [Bool.and_eq_true, decide_eq_true_eq] at hcon
  have hcontra : (97 : UInt32) ≤ 90 := UInt32.le_trans h1 hcon.2
  exact absurd hcontra (by decide)

theorem pyIsLower_ne_empty (t : String) (h : pyIsLower t = true) : t ≠ "" := by
  intro he
  rw [he] at h
  cases h

/-- The claim-side merge-up condition implies the code's `should_merge_up`
for any stripped description other than the literal `nan`. -/
theorem mergeUpClaimCond_implies (t : String) (hstrip : pyStrip t = t)
    (hc : mergeUpClaimCond t = true) (hn : t ≠ "nan") :
    should_merge_up t = true := by
  unfold mergeUpClaimCond at hc
  simp only [Bool.and_eq_true, Bool.or_eq_true_iff, decide_eq_true_eq,
    Bool.not_eq_true] at hc
  obtain ⟨⟨hwc, hup⟩, hbr⟩ := hc
  have hne : t ≠ "" := by
    rcases hbr with ⟨hne, -⟩ | hlo
    · exact hne
    · exact pyIsLower_ne_empty t hlo
  unfold should_merge_up
  rw [if_neg (by simp [hne, hn])]
  rw [hstrip]
  rw [if_pos (by simp [hwc, hup])]
  rcases hbr with ⟨hne2, hlow⟩ | hlo
  · simp [hne2, isLower_not_isUpper _ hlow]
  · simp [hlo]

/-- C10 counterexample: a row whose description renders as the literal
string `nan` is short, not uppercase, and entirely lowercase — so the
claim says it merges up — but `should_merge_up` excludes `nan` explicitly
and the merger leaves the table unchanged. -/
theorem c10_merge_up_counterexample :
    mergeUpClaimCond "nan" = true ∧
      should_merge_up "nan" = false ∧
      merge_long_rows tblNanDesc = tblNanDesc := by
  refine ⟨by decide, by decide, by decide⟩

/-- C10 (amended): in Pass 2, every surviving row whose description has
fewer than 15 words, is not entirely uppercase, and either starts with a
lowercase letter or is entirely lowercase — *and is not the literal
missing-value placeholder `nan`* — is merged into the previously emitted
row when one exists: its text is appended to that row's description, the
previous row's value cells are untouched, and the merged row's own cells
(numeric or not) are discarded. -/
theorem c10_merge_up (prev r : List Cell) (acc rest : List (List Cell))
    (hc : mergeUpClaimCond (rowDesc r) = true)
    (hn : rowDesc r ≠ "nan") :
    mergePass2Go (prev :: acc) (r :: rest) =
      mergePass2Go
        (setRowDesc prev (pyStrip (rowDesc prev ++ " " ++ rowDesc r)) :: acc)
        rest ∧
      (setRowDesc prev (pyStrip (rowDesc prev ++ " " ++ rowDesc r))).drop 1 =
        prev.drop 1 := by
  have hs : should_merge_up (rowDesc r) = true :=
    mergeUpClaimCond_implies _ (rowDesc_stripped r) hc hn
  constructor
  · rw [mergePass2Go.eq_def]
    dsimp only
    rw [hs, if_pos rfl]
  · unfold setRowDesc
    cases prev with
    | nil => rfl
    | cons c t => rfl

/-- C10 witness: a short lowercase row with a numeric value cell (`999`)
is merged into the previous row; the previous row's value `100` is kept
and `999` is discarded. -/
theorem c10_merge_up_witness :
    mergePass2 [[some "Cash", some "100"], [some "abc", some "999"]] =
      [[some "Cash abc", some "100"]] := by
  have h := c10_merge_up [some "Cash", some "100"] [some "abc", some "999"]
    [] [] (by decide) (by decide)
  calc mergePass2 [[some "Cash", some "100"], [some "abc", some "999"]]
      = mergePass2Go [[some "Cash", some "100"]]
          [[some "abc", some "999"]] := by decide
    _ = mergePass2Go [TenK.setRowDesc [some "Cash", some "100"]
          (pyStrip (rowDesc [some "Cash", some "100"] ++ " " ++
            rowDesc [some "abc", some "999"]))] [] := h.1
    _ = [[some "Cash abc", some "100"]] := by decide

end TenK
